import Mathlib

/-
Verification development for the chat-message hydration module
(discord/message.py): a shallow embedding of the Message value object,
its hydration pipeline, mention extraction and clean-content rendering,
together with proofs of the specified properties.

Conventions of the embedding:
  * Python attribute state is an explicit Message record; the memoized
    slot properties become Option-valued cache fields (an unset slot is
    none), and reading a memoized property returns the value together
    with the possibly-updated record.
  * Exceptions raised during an operation (TypeError on a None content,
    AttributeError on a missing server) are modelled by Option: none is
    a raised exception, some is normal completion.
  * The regular expressions are implemented as character-list scanners
    with the exact semantics of the three patterns used by the source
    (leftmost matching, one-character advance on failure, continuation
    after the end of a successful match, greedy digit runs).
-/

/-- Modelled from the spec: a server-scoped member identity with a
display name, as used by the member roster lookup contract
(getMember returns a member or null). -/
structure Member where
  id : String
  display_name : String
  deriving DecidableEq

/-- Modelled from the spec: a role entity with an id and a name,
searchable by id in the server's roles collection. -/
structure Role where
  id : String
  name : String
  deriving DecidableEq

/-- Modelled from the spec: the id/name surface of a channel entity as
returned by the channel roster lookup (getChannel). -/
structure ChannelInfo where
  id : String
  name : String
  deriving DecidableEq

/-- Modelled from the spec: the server/guild collaborator, reduced to
the three roster lookup contracts this module consumes. -/
structure Server where
  members : List Member
  channels : List ChannelInfo
  roles : List Role
  deriving DecidableEq

/-- Modelled from the spec: getMember(id), null on a miss. -/
def Server.get_member (s : Server) (i : String) : Option Member :=
  s.members.find? (fun mem => mem.id == i)

/-- Modelled from the spec: getChannel(id), null on a miss. -/
def Server.get_channel (s : Server) (i : String) : Option ChannelInfo :=
  s.channels.find? (fun c => c.id == i)

/-- Modelled from the spec: utils.get(roles, id=...), the first role
whose id equals the argument, null on a miss. -/
def utilsGet (roles : List Role) (i : String) : Option Role :=
  roles.find? (fun r => r.id == i)

/-- Modelled from the spec: a real resolved channel: private flag and,
for guild channels, the owning server. -/
structure RealChannel where
  id : String
  name : String
  is_private : Bool
  server : Server
  deriving DecidableEq

/-- A channel reference held by a message: either a bare placeholder
Object (whose is_private attribute may be present or missing, hence
Option Bool) or a real resolved channel. -/
inductive ChanRef where
  | obj (id : String) ( is_private : Option Bool)
  | real (c : RealChannel)
  deriving DecidableEq

/-- The author attribute: a lightweight payload-parsed user, possibly
upgraded to a roster member. -/
inductive Author where
  | user (id : String)
  | member (mem : Member)
  deriving DecidableEq

/-- The id attribute of the current author value. -/
def Author.idOf : Author → String
  | .user i => i
  | .member mem => mem.id

/-- An entry of the payload's structured mentions list (a user stub
carrying an id). -/
structure UserStub where
  id : String
  deriving DecidableEq

/-- The raw gateway payload fields consumed by Message._update. -/
structure Payload where
  content : Option String
  tts : Option Bool
  mention_everyone : Option Bool
  id : Option String
  channel : Option ChanRef
  channel_id : Option String
  author_id : String
  mentions : List UserStub
  mention_roles : List String
  deriving DecidableEq

/-- The Message state: the public attributes set by _update plus the
four memoized slots (none means the slot is unset). -/
structure Message where
  content : Option String
  tts : Option Bool
  mention_everyone : Option Bool
  id : Option String
  channel : Option ChanRef
  author : Author
  server : Option Server
  mentions : List Member
  channel_mentions : List ChannelInfo
  role_mentions : List Role
  raw_mentions_cache : Option (List String)
  raw_channel_mentions_cache : Option (List String)
  raw_role_mentions_cache : Option (List String)
  clean_content_cache : Option String
  deriving DecidableEq

/-- getattr(self.channel, 'is_private', True): True when the channel is
None or the attribute is missing, otherwise the attribute value. -/
def getattrIsPrivate : Option ChanRef → Bool
  | none => true
  | some (ChanRef.obj _ b) => b.getD true
  | some (ChanRef.real c) => c.is_private

/-- Split a character list into its maximal leading run of decimal
digits and the remainder (the greedy [0-9]+ step of the patterns). -/
def takeDigits : List Char → List Char × List Char
  | [] => ([], [])
  | c :: cs =>
    if c.isDigit then
      let p := takeDigits cs
      (c :: p.1, p.2)
    else ([], c :: cs)

/-- Literal prefix test on character lists. -/
def isPre : List Char → List Char → Bool
  | [], _ => true
  | a :: as, l =>
    match l with
    | [] => false
    | b :: bs => a == b && isPre as bs

/-- Try one of the three mention-marker patterns at the head of the
input: an opening character p0, a literal tail ps, an optional bang
(only the user pattern allows one), a nonempty greedy digit run and a
closing angle bracket.  Returns the captured digits and the input
remaining after the match. -/
def matchMarker (p0 : Char) (ps : List Char) (bang : Bool) (cs : List Char) :
    Option (List Char × List Char) :=
  match cs with
  | [] => none
  | c :: cs' =>
    if c = p0 ∧ isPre ps cs' then
      let rest := cs'.drop ps.length
      let rest1 := if bang ∧ rest.head? = some '!' then rest.tail else rest
      let p := takeDigits rest1
      if p.1 ≠ [] ∧ p.2.head? = some '>' then some (p.1, p.2.tail) else none
    else none

/-- Fueled scanner: at each position try the pattern; on a match emit
the captured group and continue after the match, otherwise advance one
character (re.findall semantics).  The fuel is an upper bound on the
number of steps; every step consumes at least one character, so fuel
equal to the input length is always sufficient. -/
def scanFuel (p0 : Char) (ps : List Char) (bang : Bool) : Nat → List Char → List String
  | 0, _ => []
  | _ + 1, [] => []
  | fuel + 1, c :: cs =>
    match matchMarker p0 ps bang (c :: cs) with
    | some pr => String.mk pr.1 :: scanFuel p0 ps bang fuel pr.2
    | none => scanFuel p0 ps bang fuel cs

/-- re.findall of one marker pattern over a character list. -/
def scanMarker (p0 : Char) (ps : List Char) (bang : Bool) (cs : List Char) : List String :=
  scanFuel p0 ps bang cs.length cs

/-- re.findall of the user pattern over content. -/
def rawMentionsOf (s : String) : List String :=
  scanMarker '<' ['@'] true s.toList

/-- re.findall of the channel pattern over content. -/
def rawChannelMentionsOf (s : String) : List String :=
  scanMarker '<' ['#'] false s.toList

/-- re.findall of the role pattern over content. -/
def rawRoleMentionsOf (s : String) : List String :=
  scanMarker '<' ['@', '&'] false s.toList

/-- Python dict assignment on an insertion-ordered association list:
an existing key keeps its position and gets the new value, a new key is
appended. -/
def dictInsert : List (List Char × List Char) → List Char → List Char →
    List (List Char × List Char)
  | [], k, v => [(k, v)]
  | kv :: rest, k, v =>
    if kv.1 = k then (k, v) :: rest else kv :: dictInsert rest k v

/-- Python dict.update / dict comprehension: assign the entries in
order into an existing table. -/
def dictUpdate (t : List (List Char × List Char))
    (entries : List (List Char × List Char)) : List (List Char × List Char) :=
  entries.foldl (fun acc e => dictInsert acc e.1 e.2) t

/-- Fueled substitution: re.sub with a pattern that is the alternation
of the (literal) table keys in table order, each match replaced by its
table value.  At each position the first key that matches is used, the
replacement is not rescanned, and a position with no match copies one
character.  An empty table leaves the input unchanged, as in the
source (the empty alternation matches only empty strings and the
lookup of an empty match yields the empty default). -/
def subFuel (table : List (List Char × List Char)) : Nat → List Char → List Char
  | 0, l => l
  | _ + 1, [] => []
  | fuel + 1, c :: cs =>
    match table.find? (fun kv => !kv.1.isEmpty && isPre kv.1 (c :: cs)) with
    | some kv => kv.2 ++ subFuel table fuel ((c :: cs).drop kv.1.length)
    | none => c :: subFuel table fuel cs

/-- re.sub of the alternation of the table keys over a character list. -/
def subPairs (table : List (List Char × List Char)) (cs : List Char) : List Char :=
  subFuel table cs.length cs

/-- The second clean_content pass: defuse the two literal broadcast
mentions with a zero-width space after the at sign. -/
def defuseTable : List (List Char × List Char) :=
  [("@everyone".toList, "@\u200Beveryone".toList),
   ("@here".toList, "@\u200Bhere".toList)]

/-- The raw_mentions memoized property: return the cached value, else
extract from content (raising, i.e. none, when content is None) and
fill the slot. -/
def Message.raw_mentions (m : Message) : Option (List String) × Message :=
  match m.raw_mentions_cache with
  | some v => (some v, m)
  | none =>
    match m.content with
    | none => (none, m)
    | some s =>
      (some (rawMentionsOf s), { m with raw_mentions_cache := some (rawMentionsOf s) })

/-- The raw_channel_mentions memoized property. -/
def Message.raw_channel_mentions (m : Message) : Option (List String) × Message :=
  match m.raw_channel_mentions_cache with
  | some v => (some v, m)
  | none =>
    match m.content with
    | none => (none, m)
    | some s =>
      (some (rawChannelMentionsOf s),
       { m with raw_channel_mentions_cache := some (rawChannelMentionsOf s) })

/-- The raw_role_mentions memoized property. -/
def Message.raw_role_mentions (m : Message) : Option (List String) × Message :=
  match m.raw_role_mentions_cache with
  | some v => (some v, m)
  | none =>
    match m.content with
    | none => (none, m)
    | some s =>
      (some (rawRoleMentionsOf s),
       { m with raw_role_mentions_cache := some (rawRoleMentionsOf s) })

/-- The clean_content memoized property: build the substitution table
from the resolved mention lists (channel markers, then both user
marker forms, then, when a server is resolved, role markers), apply it
to content, then defuse the broadcast mentions. -/
def Message.clean_content (m : Message) : Option String × Message :=
  match m.clean_content_cache with
  | some v => (some v, m)
  | none =>
    match m.content with
    | none => (none, m)
    | some s =>
      let t1 := dictUpdate [] (m.channel_mentions.map (fun c =>
        (("<#" ++ c.id ++ ">").toList, ("#" ++ c.name).toList)))
      let t2 := dictUpdate t1 (m.mentions.map (fun u =>
        (("<@" ++ u.id ++ ">").toList, ("@" ++ u.display_name).toList)))
      let t3 := dictUpdate t2 (m.mentions.map (fun u =>
        (("<@!" ++ u.id ++ ">").toList, ("@" ++ u.display_name).toList)))
      let t4 :=
        match m.server with
        | some _ => dictUpdate t3 (m.role_mentions.map (fun r =>
            (("<@&" ++ r.id ++ ">").toList, ("@" ++ r.name).toList)))
        | none => t3
      let v := String.mk (subPairs defuseTable (subPairs t4 s.toList))
      (some v, { m with clean_content_cache := some v })

/-- Message._handle_upgrades: reset server, keep a placeholder Object
channel as is, synthesize a placeholder from a bare channel_id when no
channel was supplied, and for a real non-private channel adopt its
server and upgrade the author to the roster member when found. -/
def Message.handle_upgrades (m0 : Message) (channel_id : Option String) : Message :=
  let m := { m0 with server := none }
  match m.channel with
  | some (ChanRef.obj _ _) => m
  | none =>
    match channel_id with
    | some cid => { m with channel := some (ChanRef.obj cid (some true)) }
    | none => m
  | some (ChanRef.real c) =>
    if c.is_private then m
    else
      let m1 := { m with server := some c.server }
      match c.server.get_member m1.author.idOf with
      | some found => { m1 with author := Author.member found }
      | none => m1

/-- Message._handle_mentions: reset the three resolved lists, stop for
a private (or attribute-less) channel, resolve the payload's user
stubs through the member roster (an absent server raises inside the
loop), and when a server is resolved, resolve the text-derived raw
channel mentions and the payload's role ids, dropping misses. -/
def Message.handle_mentions (m0 : Message) (mentions : List UserStub)
    (mention_roles : List String) : Option Message :=
  let m := { m0 with mentions := [], channel_mentions := [], role_mentions := [] }
  if getattrIsPrivate m.channel then some m
  else
    let afterUsers : Option Message :=
      if m.channel.isSome then
        (mentions.foldlM
          (fun acc u => m.server.map (fun srv =>
            match srv.get_member u.id with
            | some mem => acc ++ [mem]
            | none => acc))
          ([] : List Member)).map
          (fun ms => { m with mentions := ms })
      else some m
    afterUsers.bind (fun m2 =>
      match m2.server with
      | none => some m2
      | some srv =>
        let p := m2.raw_channel_mentions
        match p.1 with
        | none => none
        | some ids =>
          some { p.2 with
                 channel_mentions := ids.filterMap (fun i => srv.get_channel i),
                 role_mentions :=
                   mention_roles.filterMap (fun rid => utilsGet srv.roles rid) })

/-- The delattr loop at the end of _update: unset the four memoized
slots. -/
def Message.clear_caches (m : Message) : Message :=
  { m with
    raw_mentions_cache := none
    raw_channel_mentions_cache := none
    raw_role_mentions_cache := none
    clean_content_cache := none }

/-- Message._update: assign the payload fields, run the channel/server
upgrade, run mention resolution, and finally clear the four memoized
slots. -/
def Message.update (m0 : Message) (d : Payload) : Option Message :=
  let m1 : Message :=
    { m0 with
      content := d.content
      tts := d.tts
      mention_everyone := d.mention_everyone
      id := d.id
      channel := d.channel
      author := Author.user d.author_id }
  let m2 := m1.handle_upgrades d.channel_id
  (m2.handle_mentions d.mentions d.mention_roles).map Message.clear_caches

/-- A fresh object before construction: every attribute slot unset or
trivial; Message.__init__ immediately runs _update, which writes every
field before reading it, so only the unset cache slots matter. -/
def Message.blank : Message :=
  { content := none, tts := none, mention_everyone := none, id := none,
    channel := none, author := Author.user "", server := none,
    mentions := [], channel_mentions := [], role_mentions := [],
    raw_mentions_cache := none, raw_channel_mentions_cache := none,
    raw_role_mentions_cache := none, clean_content_cache := none }

/-- Message construction from a payload. -/
def Message.init (d : Payload) : Option Message :=
  Message.blank.update d

/-- The spec's derivation of the server attribute, stated from the
spec's words: None unless the channel is a real non-private channel,
in which case it is that channel's server. -/
def serverOfChannel : Option ChanRef → Option Server
  | some (ChanRef.real c) => if c.is_private then none else some c.server
  | _ => none

/-- Substring test on character lists (used to state the defusing
property of clean_content). -/
def containsSub (needle : List Char) : List Char → Bool
  | [] => needle.isEmpty
  | c :: t => isPre needle (c :: t) || containsSub needle t

/-- A roster resolving member 123 (Alice) and channel 555 (general). -/
def rosterA : Server :=
  { members := [{ id := "123", display_name := "Alice" }],
    channels := [{ id := "555", name := "general" }],
    roles := [] }

/-- A non-private guild channel owned by rosterA. -/
def chanA : RealChannel :=
  { id := "10", name := "chat", is_private := false, server := rosterA }

/-- Payload for the two user-marker forms resolving to Alice. -/
def payloadC4 : Payload :=
  { content := some "hello <@123> and <@!123>", tts := none,
    mention_everyone := none, id := some "1",
    channel := some (ChanRef.real chanA), channel_id := none,
    author_id := "99", mentions := [{ id := "123" }], mention_roles := [] }

/-- Payload with a broadcast mention, no channel object and a bare
channel_id (degraded private-message context). -/
def payloadC7 : Payload :=
  { content := some "ping @everyone now", tts := none,
    mention_everyone := some true, id := some "2",
    channel := none, channel_id := some "9",
    author_id := "99", mentions := [], mention_roles := [] }

/-- A roster with channel 555 but no members. -/
def rosterB : Server :=
  { members := [], channels := [{ id := "555", name := "general" }], roles := [] }

/-- A non-private guild channel owned by rosterB. -/
def chanB : RealChannel :=
  { id := "10", name := "chat", is_private := false, server := rosterB }

/-- First-generation payload whose content mentions channel 555. -/
def payloadB1 : Payload :=
  { content := some "<#555>", tts := none, mention_everyone := none,
    id := some "1", channel := some (ChanRef.real chanB), channel_id := none,
    author_id := "7", mentions := [], mention_roles := [] }

/-- Second-generation payload: same context, content without any
channel mention. -/
def payloadB2 : Payload := { payloadB1 with content := some "x" }

/-- Payload whose content mentions user id 999, absent from the
roster. -/
def payloadC3 : Payload :=
  { content := some "<@999>", tts := none, mention_everyone := none,
    id := some "3", channel := some (ChanRef.real chanB), channel_id := none,
    author_id := "999", mentions := [{ id := "999" }], mention_roles := [] }

/-- A payload over an arbitrary roster whose content carries an
unresolved user marker next to a resolvable channel marker. -/
def c3Payload (srv : Server) : Payload :=
  { content := some "<@999> <#555>", tts := none, mention_everyone := none,
    id := some "3",
    channel := some (ChanRef.real
      { id := "10", name := "chat", is_private := false, server := srv }),
    channel_id := none, author_id := "999",
    mentions := [{ id := "999" }], mention_roles := [] }

/-- Same content as payloadC4 but a roster that resolves nothing. -/
def payloadC5b : Payload :=
  { payloadC4 with channel := some (ChanRef.real chanB) }

/-- A private-context payload full of mention markup and structured
mention fields. -/
def payloadC1w : Payload :=
  { payloadC7 with
    content := some "<@123> <#555> <@&5>"
    mentions := [{ id := "123" }]
    mention_roles := ["5"] }

/-- A payload with no content key at all. -/
def payloadC10 : Payload := { payloadC7 with content := none }

/-- C4: for a non-private message with content containing both the
plain and the bang-qualified marker for member 123 (Alice),
raw_mentions yields the id twice and clean_content substitutes both
forms with the display name. -/
theorem c4_both_user_marker_forms :
    (Message.init payloadC4).map (fun m => (m.raw_mentions).1)
      = some (some ["123", "123"])
    ∧ (Message.init payloadC4).map (fun m => (m.clean_content).1)
      = some (some "hello @Alice and @Alice") := by
  decide

/-- C7: clean_content defuses the literal broadcast mention with a
zero-width space after the at sign: on content "ping @everyone now"
the result is the defused string, which contains the defused form and
does not contain the plain form. -/
theorem c7_defuse_everyone :
    (Message.init payloadC7).map (fun m => (m.clean_content).1)
      = some (some "ping @​everyone now")
    ∧ containsSub "@everyone".toList "ping @​everyone now".toList = false
    ∧ containsSub "@​everyone".toList "ping @​everyone now".toList = true := by
  decide

/-- C2 (failing-input evaluation): hydrate with content mentioning
channel 555, read raw_channel_mentions (filling the memoized slot),
then re-hydrate with content "x"; the final channel_mentions list is
still the one resolved from the previous generation's raw ids even
though the new content has no channel marker, because _update clears
the memoized slots only after _handle_mentions has run. -/
theorem c2_stale_cache_on_rehydration :
    ((Message.init payloadB1).bind (fun m1 =>
        ((m1.raw_channel_mentions).2.update payloadB2))).map Message.channel_mentions
      = some [{ id := "555", name := "general" }]
    ∧ rawChannelMentionsOf "x" = [] := by
  decide

/-- C3 (counterexample): with content consisting of the single marker
for the unresolvable id 999, clean_content returns the marker itself
as raw markup, not the empty string. -/
theorem c3_counterexample_marker_kept :
    (Message.init payloadC3).map (fun m => (m.clean_content).1)
      = some (some "<@999>")
    ∧ (Message.init payloadC3).map Message.mentions = some []
    ∧ ("<@999>" : String) ≠ "" := by
  decide

/-- C6 (counterexample): from a state in which raw_channel_mentions
was read after the previous hydration, applying _update twice with the
same payload does not agree with applying it once: the single
application resolves channel mentions from the stale cached raw list,
the second application from the new content. -/
theorem c6_counterexample_not_idempotent :
    ((Message.init payloadB1).bind (fun m1 =>
        ((m1.raw_channel_mentions).2.update payloadB2)))
    ≠ ((Message.init payloadB1).bind (fun m1 =>
        ((m1.raw_channel_mentions).2.update payloadB2).bind
          (fun m2 => m2.update payloadB2))) := by
  decide

lemma raw_channel_mentions_snd (m : Message) :
    ∃ c, (m.raw_channel_mentions).2 = { m with raw_channel_mentions_cache := c } := by
  unfold Message.raw_channel_mentions
  split
  · exact ⟨m.raw_channel_mentions_cache, rfl⟩
  · split
    · exact ⟨m.raw_channel_mentions_cache, rfl⟩
    · exact ⟨_, rfl⟩

lemma handle_mentions_frame {m m' : Message} {a : List UserStub} {b : List String}
    (h : Message.handle_mentions m a b = some m') :
    m'.channel = m.channel ∧ m'.server = m.server ∧ m'.content = m.content := by
  unfold Message.handle_mentions at h
  dsimp only at h
  split at h
  · cases h
    exact ⟨rfl, rfl, rfl⟩
  · rw [Option.bind_eq_some] at h
    obtain ⟨m2, hA, hB⟩ := h
    have hm2 : m2.channel = m.channel ∧ m2.server = m.server ∧ m2.content = m.content := by
      split at hA
      · rw [Option.map_eq_some'] at hA
        obtain ⟨ms, _, rfl⟩ := hA
        exact ⟨rfl, rfl, rfl⟩
      · cases hA
        exact ⟨rfl, rfl, rfl⟩
    split at hB
    · cases hB
      exact hm2
    · split at hB
      · cases hB
      · cases hB
        obtain ⟨c, hc⟩ := raw_channel_mentions_snd m2
        rw [hc]
        exact hm2

lemma handle_upgrades_content (m : Message) (cid : Option String) :
    (m.handle_upgrades cid).content = m.content := by
  unfold Message.handle_upgrades
  dsimp only
  split
  · rfl
  · split
    · rfl
    · rfl
  · split
    · rfl
    · split
      · rfl
      · rfl

lemma handle_upgrades_server_spec (m : Message) (cid : Option String) :
    (m.handle_upgrades cid).server = serverOfChannel (m.handle_upgrades cid).channel := by
  unfold Message.handle_upgrades
  dsimp only
  split
  · next hc => simp [serverOfChannel, hc]
  · next hc =>
    split
    · simp [serverOfChannel]
    · simp [serverOfChannel, hc]
  · next c hc =>
    split
    · next hp => simp [serverOfChannel, hc, hp]
    · next hp =>
      split
      · simp [serverOfChannel, hc, hp]
      · simp [serverOfChannel, hc, hp]

lemma update_some_facts {m0 : Message} {d : Payload} {m : Message}
    (h : Message.update m0 d = some m) :
    m.content = d.content ∧ m.raw_mentions_cache = none ∧
    m.raw_channel_mentions_cache = none ∧ m.raw_role_mentions_cache = none ∧
    m.clean_content_cache = none ∧ m.server = serverOfChannel m.channel := by
  unfold Message.update at h
  dsimp only at h
  rw [Option.map_eq_some'] at h
  obtain ⟨m3, h3, rfl⟩ := h
  obtain ⟨hc, hs, hcont⟩ := handle_mentions_frame h3
  refine ⟨?_, rfl, rfl, rfl, rfl, ?_⟩
  · show m3.content = d.content
    rw [hcont, handle_upgrades_content]
  · show m3.server = serverOfChannel m3.channel
    rw [hs, hc, handle_upgrades_server_spec]

lemma raw_mentions_fst_of_none {m : Message} (h : m.raw_mentions_cache = none) :
    (m.raw_mentions).1 = m.content.map rawMentionsOf := by
  unfold Message.raw_mentions
  rw [h]
  cases hc : m.content <;> simp [hc]

lemma raw_channel_mentions_fst_of_none {m : Message} (h : m.raw_channel_mentions_cache = none) :
    (m.raw_channel_mentions).1 = m.content.map rawChannelMentionsOf := by
  unfold Message.raw_channel_mentions
  rw [h]
  cases hc : m.content <;> simp [hc]

lemma raw_role_mentions_fst_of_none {m : Message} (h : m.raw_role_mentions_cache = none) :
    (m.raw_role_mentions).1 = m.content.map rawRoleMentionsOf := by
  unfold Message.raw_role_mentions
  rw [h]
  cases hc : m.content <;> simp [hc]

lemma clean_content_fst_of_none {m : Message} (h1 : m.clean_content_cache = none)
    (h2 : m.content = none) : (m.clean_content).1 = none := by
  unfold Message.clean_content
  rw [h1, h2]

lemma raw_mentions_fst_isSome {m : Message} {s : String} (h : m.content = some s) :
    (m.raw_mentions).1.isSome := by
  unfold Message.raw_mentions
  cases hc : m.raw_mentions_cache <;> simp [h, hc]

lemma raw_channel_mentions_fst_isSome {m : Message} {s : String} (h : m.content = some s) :
    (m.raw_channel_mentions).1.isSome := by
  unfold Message.raw_channel_mentions
  cases hc : m.raw_channel_mentions_cache <;> simp [h, hc]

lemma raw_role_mentions_fst_isSome {m : Message} {s : String} (h : m.content = some s) :
    (m.raw_role_mentions).1.isSome := by
  unfold Message.raw_role_mentions
  cases hc : m.raw_role_mentions_cache <;> simp [h, hc]

lemma clean_content_fst_isSome {m : Message} {s : String} (h : m.content = some s) :
    (m.clean_content).1.isSome := by
  unfold Message.clean_content
  cases hc : m.clean_content_cache <;> simp [h, hc]

lemma handle_mentions_of_private {m : Message}
    (hp : getattrIsPrivate m.channel = true) (a : List UserStub) (b : List String) :
    Message.handle_mentions m a b
      = some { m with mentions := [], channel_mentions := [], role_mentions := [] } := by
  unfold Message.handle_mentions
  dsimp only
  rw [if_pos hp]

lemma handle_upgrades_private_of_none {m : Message} (h : m.channel = none)
    (cid : Option String) :
    getattrIsPrivate (m.handle_upgrades cid).channel = true := by
  unfold Message.handle_upgrades
  dsimp only
  simp only [h]
  cases cid <;> rfl

lemma handle_upgrades_placeholder {m : Message} (h : m.channel = none) (cid : String) :
    m.handle_upgrades (some cid)
      = { m with server := none, channel := some (ChanRef.obj cid (some true)) } := by
  unfold Message.handle_upgrades
  dsimp only
  simp only [h]

/-- C1: after any successful hydration whose resulting channel is
private, absent or a placeholder (is_private true or missing), the
three resolved mention lists are empty. -/
theorem c1_private_no_resolved_mentions (m0 : Message) (d : Payload) (m : Message)
    (h : Message.update m0 d = some m)
    (hp : getattrIsPrivate m.channel = true) :
    m.mentions = [] ∧ m.channel_mentions = [] ∧ m.role_mentions = [] := by
  unfold Message.update at h
  dsimp only at h
  rw [Option.map_eq_some'] at h
  obtain ⟨m3, h3, rfl⟩ := h
  have hp' : getattrIsPrivate m3.channel = true := hp
  rw [(handle_mentions_frame h3).1] at hp'
  rw [handle_mentions_of_private hp'] at h3
  cases h3
  exact ⟨rfl, rfl, rfl⟩

theorem c1_witness :
    ((Message.init payloadC1w).getD Message.blank).mentions = [] ∧
    ((Message.init payloadC1w).getD Message.blank).channel_mentions = [] ∧
    ((Message.init payloadC1w).getD Message.blank).role_mentions = [] :=
  c1_private_no_resolved_mentions Message.blank payloadC1w
    ((Message.init payloadC1w).getD Message.blank) (by decide) (by decide)

/-- C5: the three raw mention lists of a hydrated message are a
function of the payload's content alone. -/
theorem c5_raw_lists_pure_in_content (m0 m0' : Message) (d d' : Payload) (m m' : Message)
    (h : Message.update m0 d = some m) (h' : Message.update m0' d' = some m')
    (hc : d.content = d'.content) :
    (m.raw_mentions).1 = (m'.raw_mentions).1 ∧
    (m.raw_channel_mentions).1 = (m'.raw_channel_mentions).1 ∧
    (m.raw_role_mentions).1 = (m'.raw_role_mentions).1 := by
  obtain ⟨hcont, h1, h2, h3, h4, -⟩ := update_some_facts h
  obtain ⟨hcont', h1', h2', h3', h4', -⟩ := update_some_facts h'
  rw [raw_mentions_fst_of_none h1, raw_mentions_fst_of_none h1',
      raw_channel_mentions_fst_of_none h2, raw_channel_mentions_fst_of_none h2',
      raw_role_mentions_fst_of_none h3, raw_role_mentions_fst_of_none h3',
      hcont, hcont', hc]
  exact ⟨rfl, rfl, rfl⟩

theorem c5_witness :
    (((Message.init payloadC4).getD Message.blank).raw_mentions).1
      = (((Message.init payloadC5b).getD Message.blank).raw_mentions).1 ∧
    (((Message.init payloadC4).getD Message.blank).raw_channel_mentions).1
      = (((Message.init payloadC5b).getD Message.blank).raw_channel_mentions).1 ∧
    (((Message.init payloadC4).getD Message.blank).raw_role_mentions).1
      = (((Message.init payloadC5b).getD Message.blank).raw_role_mentions).1 :=
  c5_raw_lists_pure_in_content Message.blank Message.blank payloadC4 payloadC5b
    ((Message.init payloadC4).getD Message.blank)
    ((Message.init payloadC5b).getD Message.blank)
    (by decide) (by decide) rfl

lemma pipeline_placeholder (m1 : Message) (cid : String) (hch : m1.channel = none)
    (a : List UserStub) (b : List String) :
    (Message.handle_mentions (m1.handle_upgrades (some cid)) a b).map
      Message.clear_caches
    = some
      { m1 with
        server := none
        channel := some (ChanRef.obj cid (some true))
        mentions := []
        channel_mentions := []
        role_mentions := []
        raw_mentions_cache := none
        raw_channel_mentions_cache := none
        raw_role_mentions_cache := none
        clean_content_cache := none } := by
  have h2' := handle_upgrades_placeholder hch cid
  rw [h2']
  have h3' := handle_mentions_of_private
    (m := { m1 with server := none, channel := some (ChanRef.obj cid (some true)) })
    rfl a b
  rw [h3']
  rfl

lemma pipeline_chan_none (m1 : Message) (cid : Option String) (hch : m1.channel = none)
    (a : List UserStub) (b : List String) :
    ∃ m, (Message.handle_mentions (m1.handle_upgrades cid) a b).map
      Message.clear_caches
      = some m ∧ m.content = m1.content ∧ m.raw_mentions_cache = none ∧
      m.raw_channel_mentions_cache = none ∧ m.raw_role_mentions_cache = none ∧
      m.clean_content_cache = none := by
  have hpriv := handle_upgrades_private_of_none hch cid
  have h3' := handle_mentions_of_private hpriv a b
  rw [h3']
  refine ⟨_, rfl, ?_, rfl, rfl, rfl, rfl⟩
  show (m1.handle_upgrades cid).content = m1.content
  exact handle_upgrades_content _ _

/-- C9: a payload with no channel object but a channel_id hydrates
without failure into the placeholder Object with is_private true and a
None server; and in general the hydrated server is derived from the
hydrated channel exactly as the spec states (None unless a real
non-private channel, whose server it then is). -/
theorem c9_placeholder_and_server_derivation (m0 : Message) (d : Payload) (cid : String)
    (h1 : d.channel = none) (h2 : d.channel_id = some cid) :
    (∃ m, Message.update m0 d = some m ∧
       m.channel = some (ChanRef.obj cid (some true)) ∧ m.server = none) ∧
    (∀ (n0 : Message) (e : Payload) (n : Message), Message.update n0 e = some n →
       n.server = serverOfChannel n.channel) := by
  constructor
  · unfold Message.update
    dsimp only
    rw [h2]
    exact ⟨_, pipeline_placeholder _ cid h1 _ _, rfl, rfl⟩
  · intro n0 e n hn
    exact (update_some_facts hn).2.2.2.2.2

theorem c9_witness :
    (∃ m, Message.update Message.blank payloadC7 = some m ∧
       m.channel = some (ChanRef.obj "9" (some true)) ∧ m.server = none) ∧
    (∀ (n0 : Message) (e : Payload) (n : Message), Message.update n0 e = some n →
       n.server = serverOfChannel n.channel) :=
  c9_placeholder_and_server_derivation Message.blank payloadC7 "9" rfl rfl

/-- C10: hydration from a payload with no content succeeds in a
private/unresolved channel context with content None, after which each
of the four derived accessors raises (returns none); and whenever
content is a string, all four accessors return a value. -/
theorem c10_derived_total_only_with_content (m0 : Message) (d : Payload)
    (h1 : d.content = none) (h2 : d.channel = none) :
    (∃ m, Message.update m0 d = some m ∧ m.content = none ∧
       (m.raw_mentions).1 = none ∧ (m.raw_channel_mentions).1 = none ∧
       (m.raw_role_mentions).1 = none ∧ (m.clean_content).1 = none) ∧
    (∀ (mm : Message) (s : String), mm.content = some s →
       (mm.raw_mentions).1.isSome ∧ (mm.raw_channel_mentions).1.isSome ∧
       (mm.raw_role_mentions).1.isSome ∧ (mm.clean_content).1.isSome) := by
  constructor
  · unfold Message.update
    dsimp only
    obtain ⟨m, hm, hcont, k1, k2, k3, k4⟩ :=
      pipeline_chan_none
        { m0 with
          content := d.content
          tts := d.tts
          mention_everyone := d.mention_everyone
          id := d.id
          channel := d.channel
          author := Author.user d.author_id }
        d.channel_id h2 d.mentions d.mention_roles
    have hmc : m.content = none := by rw [hcont]; exact h1
    refine ⟨m, hm, hmc, ?_, ?_, ?_, clean_content_fst_of_none k4 hmc⟩
    · rw [raw_mentions_fst_of_none k1, hmc]; rfl
    · rw [raw_channel_mentions_fst_of_none k2, hmc]; rfl
    · rw [raw_role_mentions_fst_of_none k3, hmc]; rfl
  · intro mm s hs
    exact ⟨raw_mentions_fst_isSome hs, raw_channel_mentions_fst_isSome hs,
           raw_role_mentions_fst_isSome hs, clean_content_fst_isSome hs⟩

theorem c10_witness :
    (∃ m, Message.update Message.blank payloadC10 = some m ∧ m.content = none ∧
       (m.raw_mentions).1 = none ∧ (m.raw_channel_mentions).1 = none ∧
       (m.raw_role_mentions).1 = none ∧ (m.clean_content).1 = none) ∧
    (∀ (mm : Message) (s : String), mm.content = some s →
       (mm.raw_mentions).1.isSome ∧ (mm.raw_channel_mentions).1.isSome ∧
       (mm.raw_role_mentions).1.isSome ∧ (mm.clean_content).1.isSome) :=
  c10_derived_total_only_with_content Message.blank payloadC10 rfl rfl

lemma takeDigits_all (ds : List Char) (t : List Char) :
    (∀ c ∈ ds, c.isDigit = true) → takeDigits (ds ++ '>' :: t) = (ds, '>' :: t) := by
  induction ds with
  | nil =>
    intro _
    show takeDigits ('>' :: t) = ([], '>' :: t)
    rw [takeDigits, if_neg]
    intro hc
    exact absurd hc (by decide)
  | cons d ds ih =>
    intro h
    have hd : d.isDigit = true := h d (List.mem_cons_self d ds)
    show takeDigits (d :: (ds ++ '>' :: t)) = (d :: ds, '>' :: t)
    rw [takeDigits, if_pos hd, ih (fun c hc => h c (List.mem_cons_of_mem d hc))]

lemma scanFuel_nil (p0 : Char) (ps : List Char) (bang : Bool) (f : Nat) :
    scanFuel p0 ps bang f [] = [] := by
  cases f <;> rfl

lemma matchMarker_none_head {c p0 : Char} (h : c ≠ p0) (ps : List Char) (bang : Bool)
    (cs : List Char) : matchMarker p0 ps bang (c :: cs) = none := by
  have e : matchMarker p0 ps bang (c :: cs)
      = (if c = p0 ∧ isPre ps cs = true then
          (let rest := cs.drop ps.length
           let rest1 := if bang = true ∧ rest.head? = some '!' then rest.tail else rest
           let p := takeDigits rest1
           if p.1 ≠ [] ∧ p.2.head? = some '>' then some (p.1, p.2.tail) else none)
         else none) := rfl
  rw [e, if_neg (fun hc => h hc.1)]

lemma scanFuel_no_open (p0 : Char) (ps : List Char) (bang : Bool) :
    ∀ (f : Nat) (l : List Char), p0 ∉ l → scanFuel p0 ps bang f l = [] := by
  intro f
  induction f with
  | zero => intro l _; rfl
  | succ f ih =>
    intro l h
    cases l with
    | nil => rfl
    | cons c cs =>
      have hc : c ≠ p0 := by
        rintro rfl
        exact h (List.mem_cons_self _ _)
      show (match matchMarker p0 ps bang (c :: cs) with
        | some pr => String.mk pr.1 :: scanFuel p0 ps bang f pr.2
        | none => scanFuel p0 ps bang f cs) = []
      rw [matchMarker_none_head hc]
      exact ih cs (fun hm => h (List.mem_cons_of_mem c hm))

lemma matchMarker_role (ds : List Char) (h1 : ds ≠ []) (h2 : ∀ c ∈ ds, c.isDigit = true) :
    matchMarker '<' ['@', '&'] false ('<' :: '@' :: '&' :: ds ++ ['>']) = some (ds, []) := by
  have e : matchMarker '<' ['@', '&'] false ('<' :: '@' :: '&' :: ds ++ ['>'])
      = (if (takeDigits (ds ++ ['>'])).1 ≠ []
            ∧ (takeDigits (ds ++ ['>'])).2.head? = some '>'
         then some ((takeDigits (ds ++ ['>'])).1, (takeDigits (ds ++ ['>'])).2.tail)
         else none) := rfl
  rw [e, takeDigits_all ds [] h2]
  exact if_pos ⟨h1, rfl⟩

lemma matchMarker_chan (ds : List Char) (h1 : ds ≠ []) (h2 : ∀ c ∈ ds, c.isDigit = true) :
    matchMarker '<' ['#'] false ('<' :: '#' :: ds ++ ['>']) = some (ds, []) := by
  have e : matchMarker '<' ['#'] false ('<' :: '#' :: ds ++ ['>'])
      = (if (takeDigits (ds ++ ['>'])).1 ≠ []
            ∧ (takeDigits (ds ++ ['>'])).2.head? = some '>'
         then some ((takeDigits (ds ++ ['>'])).1, (takeDigits (ds ++ ['>'])).2.tail)
         else none) := rfl
  rw [e, takeDigits_all ds [] h2]
  exact if_pos ⟨h1, rfl⟩

/-- C8: the three extraction patterns are disjoint per category: a
role marker with any nonempty digit id is extracted only by the role
pattern, and a channel marker only by the channel pattern. -/
theorem c8_patterns_disjoint (ds : List Char) (h1 : ds ≠ [])
    (h2 : ∀ c ∈ ds, c.isDigit = true) :
    rawMentionsOf (String.mk ('<' :: '@' :: '&' :: ds ++ ['>'])) = []
    ∧ rawRoleMentionsOf (String.mk ('<' :: '@' :: '&' :: ds ++ ['>'])) = [String.mk ds]
    ∧ rawChannelMentionsOf (String.mk ('<' :: '@' :: '&' :: ds ++ ['>'])) = []
    ∧ rawChannelMentionsOf (String.mk ('<' :: '#' :: ds ++ ['>'])) = [String.mk ds]
    ∧ rawMentionsOf (String.mk ('<' :: '#' :: ds ++ ['>'])) = []
    ∧ rawRoleMentionsOf (String.mk ('<' :: '#' :: ds ++ ['>'])) = [] := by
  have hnoRole : '<' ∉ ('@' :: '&' :: ds ++ ['>']) := by
    intro hm
    rcases List.mem_cons.mp hm with h | hm2
    · exact absurd h (by decide)
    rcases List.mem_cons.mp hm2 with h | hm3
    · exact absurd h (by decide)
    rcases List.mem_append.mp hm3 with h | h
    · exact absurd (h2 _ h) (by decide)
    · rcases List.mem_cons.mp h with h | h
      · exact absurd h (by decide)
      · exact absurd h (List.not_mem_nil _)
  have hnoChan : '<' ∉ ('#' :: ds ++ ['>']) := by
    intro hm
    rcases List.mem_cons.mp hm with h | hm2
    · exact absurd h (by decide)
    rcases List.mem_append.mp hm2 with h | h
    · exact absurd (h2 _ h) (by decide)
    · rcases List.mem_cons.mp h with h | h
      · exact absurd h (by decide)
      · exact absurd h (List.not_mem_nil _)
  refine ⟨?_, ?_, ?_, ?_, ?_, ?_⟩
  · have step : rawMentionsOf (String.mk ('<' :: '@' :: '&' :: ds ++ ['>']))
        = scanFuel '<' ['@'] true ('@' :: '&' :: ds ++ ['>']).length
            ('@' :: '&' :: ds ++ ['>']) := rfl
    rw [step]
    exact scanFuel_no_open '<' ['@'] true _ _ hnoRole
  · have step : rawRoleMentionsOf (String.mk ('<' :: '@' :: '&' :: ds ++ ['>']))
        = (match matchMarker '<' ['@', '&'] false ('<' :: '@' :: '&' :: ds ++ ['>']) with
           | some pr => String.mk pr.1 ::
               scanFuel '<' ['@', '&'] false ('@' :: '&' :: ds ++ ['>']).length pr.2
           | none => scanFuel '<' ['@', '&'] false ('@' :: '&' :: ds ++ ['>']).length
               ('@' :: '&' :: ds ++ ['>'])) := rfl
    rw [step, matchMarker_role ds h1 h2]
    dsimp only
    rw [scanFuel_nil]
  · have step : rawChannelMentionsOf (String.mk ('<' :: '@' :: '&' :: ds ++ ['>']))
        = scanFuel '<' ['#'] false ('@' :: '&' :: ds ++ ['>']).length
            ('@' :: '&' :: ds ++ ['>']) := rfl
    rw [step]
    exact scanFuel_no_open '<' ['#'] false _ _ hnoRole
  · have step : rawChannelMentionsOf (String.mk ('<' :: '#' :: ds ++ ['>']))
        = (match matchMarker '<' ['#'] false ('<' :: '#' :: ds ++ ['>']) with
           | some pr => String.mk pr.1 ::
               scanFuel '<' ['#'] false ('#' :: ds ++ ['>']).length pr.2
           | none => scanFuel '<' ['#'] false ('#' :: ds ++ ['>']).length
               ('#' :: ds ++ ['>'])) := rfl
    rw [step, matchMarker_chan ds h1 h2]
    dsimp only
    rw [scanFuel_nil]
  · have step : rawMentionsOf (String.mk ('<' :: '#' :: ds ++ ['>']))
        = scanFuel '<' ['@'] true ('#' :: ds ++ ['>']).length ('#' :: ds ++ ['>']) := rfl
    rw [step]
    exact scanFuel_no_open '<' ['@'] true _ _ hnoChan
  · have step : rawRoleMentionsOf (String.mk ('<' :: '#' :: ds ++ ['>']))
        = scanFuel '<' ['@', '&'] false ('#' :: ds ++ ['>']).length ('#' :: ds ++ ['>']) := rfl
    rw [step]
    exact scanFuel_no_open '<' ['@', '&'] false _ _ hnoChan

theorem c8_witness :
    rawMentionsOf (String.mk ('<' :: '@' :: '&' :: ['1', '2', '3'] ++ ['>'])) = []
    ∧ rawRoleMentionsOf (String.mk ('<' :: '@' :: '&' :: ['1', '2', '3'] ++ ['>']))
        = [String.mk ['1', '2', '3']]
    ∧ rawChannelMentionsOf (String.mk ('<' :: '@' :: '&' :: ['1', '2', '3'] ++ ['>'])) = []
    ∧ rawChannelMentionsOf (String.mk ('<' :: '#' :: ['1', '2', '3'] ++ ['>']))
        = [String.mk ['1', '2', '3']]
    ∧ rawMentionsOf (String.mk ('<' :: '#' :: ['1', '2', '3'] ++ ['>'])) = []
    ∧ rawRoleMentionsOf (String.mk ('<' :: '#' :: ['1', '2', '3'] ++ ['>'])) = [] :=
  c8_patterns_disjoint ['1', '2', '3'] (by decide) (by decide)

/-- C3 (amended): a mention marker whose id does not resolve in the
roster is left in clean_content as raw markup, unchanged, rather than
being rewritten to the empty string, even while the substitution
mapping is nonempty and rewrites the resolved markers around it: for
any roster in which id 999 does not resolve as a member but channel
555 resolves to "general", clean_content of the message with content
"<@999> <#555>" rewrites the channel marker to "#general" and leaves
"<@999>" intact. -/
theorem c3_amended_unresolved_marker_kept (srv : Server)
    (h : srv.get_member "999" = none)
    (hc : srv.get_channel "555" = some { id := "555", name := "general" }) :
    (Message.init (c3Payload srv)).map (fun m => (m.clean_content).1)
      = some (some "<@999> #general") := by
  have hfm : List.filterMap (fun i => srv.get_channel i) ["555"]
      = [{ id := "555", name := "general" }] := by
    simp [List.filterMap_cons, hc]
  simp only [Message.init, Message.update, Message.handle_upgrades, Message.handle_mentions,
    Message.raw_channel_mentions, Message.clean_content, c3Payload, Message.blank,
    getattrIsPrivate, Author.idOf, h, List.foldlM, Option.map, Option.bind,
    Option.isSome, Bool.false_eq_true, eq_self_iff_true, if_true, if_false]
  show Option.map (fun (m : Message) => (m.clean_content).1)
      (some
        ({ content := some "<@999> <#555>", tts := none, mention_everyone := none,
           id := some "3",
           channel := some (ChanRef.real
             { id := "10", name := "chat", is_private := false, server := srv }),
           author := Author.user "999", server := some srv, mentions := [],
           channel_mentions := List.filterMap (fun i => srv.get_channel i) ["555"],
           role_mentions := [], raw_mentions_cache := none,
           raw_channel_mentions_cache := none, raw_role_mentions_cache := none,
           clean_content_cache := none } : Message))
    = some (some "<@999> #general")
  rw [hfm]
  rfl

theorem c3_amended_witness :
    (Message.init (c3Payload rosterB)).map (fun m => (m.clean_content).1)
      = some (some "<@999> #general") :=
  c3_amended_unresolved_marker_kept rosterB (by decide) (by decide)

lemma handle_upgrades_congr (m m' : Message) (cid : Option String)
    (h1 : m.content = m'.content) (h2 : m.tts = m'.tts)
    (h3 : m.mention_everyone = m'.mention_everyone) (h4 : m.id = m'.id)
    (h5 : m.channel = m'.channel) (h6 : m.author = m'.author)
    (h8 : m.raw_channel_mentions_cache = m'.raw_channel_mentions_cache) :
    (m.handle_upgrades cid).content = (m'.handle_upgrades cid).content ∧
    (m.handle_upgrades cid).tts = (m'.handle_upgrades cid).tts ∧
    (m.handle_upgrades cid).mention_everyone = (m'.handle_upgrades cid).mention_everyone ∧
    (m.handle_upgrades cid).id = (m'.handle_upgrades cid).id ∧
    (m.handle_upgrades cid).channel = (m'.handle_upgrades cid).channel ∧
    (m.handle_upgrades cid).author = (m'.handle_upgrades cid).author ∧
    (m.handle_upgrades cid).server = (m'.handle_upgrades cid).server ∧
    (m.handle_upgrades cid).raw_channel_mentions_cache
      = (m'.handle_upgrades cid).raw_channel_mentions_cache := by
  unfold Message.handle_upgrades
  dsimp only
  rw [h1, h2, h3, h4, h5, h6, h8]
  cases hc : m'.channel with
  | none =>
    cases cid with
    | none => exact ⟨rfl, rfl, rfl, rfl, rfl, rfl, rfl, rfl⟩
    | some cid' => exact ⟨rfl, rfl, rfl, rfl, rfl, rfl, rfl, rfl⟩
  | some cr =>
    cases cr with
    | obj oid ob => exact ⟨rfl, rfl, rfl, rfl, rfl, rfl, rfl, rfl⟩
    | real c =>
      obtain ⟨ri, rn, rp, rsrv⟩ := c
      cases rp with
      | true => exact ⟨rfl, rfl, rfl, rfl, rfl, rfl, rfl, rfl⟩
      | false =>
        dsimp only
        cases hg : rsrv.get_member m'.author.idOf with
        | none => exact ⟨rfl, rfl, rfl, rfl, rfl, rfl, rfl, rfl⟩
        | some found => exact ⟨rfl, rfl, rfl, rfl, rfl, rfl, rfl, rfl⟩

lemma handle_mentions_map_clear_congr (m m' : Message) (a : List UserStub) (b : List String)
    (h1 : m.content = m'.content) (h2 : m.tts = m'.tts)
    (h3 : m.mention_everyone = m'.mention_everyone) (h4 : m.id = m'.id)
    (h5 : m.channel = m'.channel) (h6 : m.author = m'.author)
    (h7 : m.server = m'.server)
    (h8 : m.raw_channel_mentions_cache = m'.raw_channel_mentions_cache) :
    (Message.handle_mentions m a b).map Message.clear_caches
      = (Message.handle_mentions m' a b).map Message.clear_caches := by
  obtain ⟨c1, c2, c3, c4, c5, c6, c7, c8, c9, c10, c11, c12, c13, c14⟩ := m
  obtain ⟨e1, e2, e3, e4, e5, e6, e7, e8, e9, e10, e11, e12, e13, e14⟩ := m'
  dsimp only at h1 h2 h3 h4 h5 h6 h7 h8
  subst h1
  subst h2
  subst h3
  subst h4
  subst h5
  subst h6
  subst h7
  subst h8
  unfold Message.handle_mentions Message.raw_channel_mentions Message.clear_caches
  dsimp only
  split
  · rfl
  · split
    · cases hF : List.foldlM
        (fun (acc : List Member) (u : UserStub) =>
          Option.map
            (fun srv =>
              match srv.get_member u.id with
              | some mem => acc ++ [mem]
              | none => acc)
            c7)
        ([] : List Member) a with
      | none => rfl
      | some ms =>
        cases c7 with
        | none => rfl
        | some srv =>
          cases c12 with
          | some v => rfl
          | none =>
            cases c1 with
            | none => rfl
            | some s => rfl
    · cases c7 with
      | none => rfl
      | some srv =>
        cases c12 with
        | some v => rfl
        | none =>
          cases c1 with
          | none => rfl
          | some s => rfl

lemma update_cache_only (m m' : Message) (d : Payload)
    (h : m.raw_channel_mentions_cache = m'.raw_channel_mentions_cache) :
    Message.update m d = Message.update m' d := by
  unfold Message.update
  dsimp only
  have hcongr := handle_upgrades_congr
    { m with
      content := d.content
      tts := d.tts
      mention_everyone := d.mention_everyone
      id := d.id
      channel := d.channel
      author := Author.user d.author_id }
    { m' with
      content := d.content
      tts := d.tts
      mention_everyone := d.mention_everyone
      id := d.id
      channel := d.channel
      author := Author.user d.author_id }
    d.channel_id rfl rfl rfl rfl rfl rfl h
  exact handle_mentions_map_clear_congr _ _ d.mentions d.mention_roles
    hcongr.1 hcongr.2.1 hcongr.2.2.1 hcongr.2.2.2.1 hcongr.2.2.2.2.1
    hcongr.2.2.2.2.2.1 hcongr.2.2.2.2.2.2.1 hcongr.2.2.2.2.2.2.2

lemma update_clears_rcc {m0 : Message} {d : Payload} {m : Message}
    (h : Message.update m0 d = some m) : m.raw_channel_mentions_cache = none := by
  unfold Message.update at h
  dsimp only at h
  rw [Option.map_eq_some'] at h
  obtain ⟨m3, h3, rfl⟩ := h
  rfl

/-- C6 (amended): when the raw channel-mention slot is not cached at
the first hydration (as after construction or any completed
hydration), re-hydration with the same payload is idempotent: the
second _update reproduces exactly the state of the first. -/
theorem c6_idempotent_from_clean_cache (m0 : Message) (d : Payload) (m1 : Message)
    (hc : m0.raw_channel_mentions_cache = none)
    (h : Message.update m0 d = some m1) :
    Message.update m1 d = some m1 := by
  have he : Message.update m1 d = Message.update m0 d :=
    update_cache_only m1 m0 d (by rw [update_clears_rcc h, hc])
  rw [he, h]

theorem c6_witness :
    Message.update ((Message.update Message.blank payloadB1).getD Message.blank) payloadB1
      = some ((Message.update Message.blank payloadB1).getD Message.blank) :=
  c6_idempotent_from_clean_cache Message.blank payloadB1
    ((Message.update Message.blank payloadB1).getD Message.blank) rfl (by decide)
